import Mathlib

/-!
Shallow embedding of the audio-lab orchestration core (Go) for checking the
natural-language specification against the code.

Embedded components (translated from the source files):
- pkg/errors: the structured error taxonomy, as the inductive `PErr`;
- domain/model/audio.go: options, metadata, results, batch types;
- application/pipeline (Pipeline.Run, validateInput, runFFmpeg,
  buildCodecArgs) over an explicit collaborator environment `Env`;
- infrastructure/ffmpeg (FilterChainBuilder);
- pkg/retry (Do) as a deterministic trace-producing function over an
  explicit cancellation oracle;
- application/pipeline/worker_pool.go (WorkerPool.Run) as a sequential
  model parameterized by a scheduler oracle that resolves the Go select
  race between context cancellation and semaphore admission;
- application/usecase (AudioService.ProcessAudio) including the retry
  closure that suppresses validation errors.

Modelling conventions: Go durations are abstract integer time units
(`Int`); float64 loudness values and the retry multiplier are rationals,
with Go float-to-integer conversion modelled as truncation toward zero;
wall-clock fields (Duration, ProcessedAt, generated job IDs) and logging
are not modelled; fallible Go code returns `Option`/`Except`; a nil
pointer dereference is a distinguished outcome constructor.
-/

deriving instance DecidableEq for Except

namespace AudioLab

/-- Structured error taxonomy from pkg/errors: ValidationError (field,
value, message), ProcessingError (stage, message, wrapped cause),
FFmpegError (message, args, exit code, stderr), plain `fmt.Errorf` errors,
wrapping `fmt.Errorf` with a cause, and the ambient context cancellation
error. The interface value of a Go error is modelled by its dynamic
payload; `Value interface\x7b\x7d` fields are modelled as strings. -/
inductive PErr where
  | validation (field value message : String)
  | processing (stage message : String) (cause : PErr)
  | ffmpeg (message : String) (args : List String) (exitCode : Int) (stderr : String)
  | plain (message : String)
  | wrapped (message : String) (cause : PErr)
  | ctxCanceled
deriving DecidableEq, Repr

/-- Model of errors.As applied to a ValidationError target:
checks the dynamic type of the error and then follows the Unwrap chain
(ProcessingError and wrapping fmt.Errorf unwrap to their cause;
ValidationError and FFmpegError in this repository never wrap a
ValidationError). -/
def isValidationChain : PErr → Bool
  | .validation _ _ _ => true
  | .processing _ _ c => isValidationChain c
  | .wrapped _ c => isValidationChain c
  | _ => false

/-- Dynamic-type test: is the error itself a ValidationError. -/
def isValidationErr : PErr → Bool
  | .validation _ _ _ => true
  | _ => false

/-- Dynamic-type test: is the error itself a ProcessingError. -/
def isProcessingErr : PErr → Bool
  | .processing _ _ _ => true
  | _ => false

/-- AudioMetadata from domain/model/audio.go; Duration is in abstract
integer time units. -/
structure AudioMetadata where
  duration : Int
  sampleRate : Int
  channels : Int
  bitrate : Int
  codec : String
  format : String
  size : Int
deriving DecidableEq, Repr

/-- The Go zero value `model.AudioMetadata\x7b\x7d` substituted by
Pipeline.Run when probing the output file fails. -/
def AudioMetadata.zero : AudioMetadata :=
  { duration := 0, sampleRate := 0, channels := 0, bitrate := 0
    codec := "", format := "", size := 0 }

/-- ProcessingOptions from domain/model/audio.go. Codec and BitrateMode
are Go string types; durations are abstract integer units. -/
structure ProcessingOptions where
  codec : String
  bitrate : Int
  bitrateMode : String
  sampleRate : Int
  normalizationEnabled : Bool
  loudnessTarget : ℚ
  truePeakLimit : ℚ
  loudnessRange : ℚ
  highpassEnabled : Bool
  highpassFreq : Int
  lowpassEnabled : Bool
  lowpassFreq : Int
  timeout : Int
  workers : Int
  maxRetries : Int
  retryDelay : Int
deriving DecidableEq, Repr

/-- One second expressed in the model's integer duration units
(nanoseconds, matching Go time.Duration). -/
def goSecond : Int := 1000000000

/-- One minute in model duration units. -/
def goMinute : Int := 60 * goSecond

/-- DefaultProcessingOptions from domain/model/audio.go. -/
def defaultProcessingOptions : ProcessingOptions :=
  { codec := "opus"
    bitrate := 128000
    bitrateMode := "cbr"
    sampleRate := 48000
    normalizationEnabled := true
    loudnessTarget := -23
    truePeakLimit := -1
    loudnessRange := 7
    highpassEnabled := false
    highpassFreq := 80
    lowpassEnabled := false
    lowpassFreq := 18000
    timeout := 5 * goMinute
    workers := 4
    maxRetries := 3
    retryDelay := goSecond }

/-- ProcessingResult from domain/model/audio.go, without the wall-clock
Duration and ProcessedAt fields (not modelled). -/
structure ProcessingResult where
  inputPath : String
  outputPath : String
  inputMeta : AudioMetadata
  outputMeta : AudioMetadata
deriving DecidableEq, Repr

/-- Pipeline Job (application/pipeline): identity, paths and the options
snapshot; the Reporter and Log handles carry no claim-relevant state. -/
structure Job where
  id : String
  inputPath : String
  outputPath : String
  options : ProcessingOptions
deriving DecidableEq, Repr

/-- BatchJob from domain/model/audio.go; a nil Options pointer is
`none`. -/
structure BatchJob where
  id : String
  inputPath : String
  outputPath : String
  options : Option ProcessingOptions
deriving DecidableEq, Repr

/-- BatchResult from domain/model/audio.go. -/
structure BatchResult where
  jobID : String
  result : Option ProcessingResult
  err : Option PErr
deriving DecidableEq, Repr

/-- An invocation of the external transformation executor
(ports.FFmpegExecutor): either Probe or Execute. -/
inductive ExecCall where
  | probe (path : String)
  | exec (args : List String)
deriving DecidableEq, Repr

/-- Collaborator environment for one pipeline run: the storage provider's
Exists (an error is a Go error message), the result of
`Pipeline.probeFile` (executor Probe plus ffprobe JSON parsing, modelled
at the collaborator boundary as a path-indexed oracle), and the
executor's Execute. -/
structure Env where
  storageExists : String → Except String Bool
  probe : String → Except PErr AudioMetadata
  execute : List String → Option PErr

/-- Pipeline.validateInput from application/pipeline: empty-path checks,
storage existence check (a storage error is wrapped as a ProcessingError
with stage "validate", a missing file is a ValidationError), then the
positivity checks on bitrate and sample rate, in source order. -/
def validateInput (env : Env) (job : Job) : Option PErr :=
  if job.inputPath = "" then
    some (.validation "inputPath" "" "input path must not be empty")
  else if job.outputPath = "" then
    some (.validation "outputPath" "" "output path must not be empty")
  else
    match env.storageExists job.inputPath with
    | .error msg => some (.processing "validate" "failed to check input file" (.plain msg))
    | .ok b =>
      if b = false then
        some (.validation "inputPath" job.inputPath "input file does not exist")
      else if job.options.bitrate ≤ 0 then
        some (.validation "bitrate" (toString job.options.bitrate) "bitrate must be positive")
      else if job.options.sampleRate ≤ 0 then
        some (.validation "sampleRate" (toString job.options.sampleRate) "sample rate must be positive")
      else
        none

/-- FilterChainBuilder from infrastructure/ffmpeg/executor.go: an ordered
list of filter strings. -/
structure FilterChainBuilder where
  filters : List String
deriving DecidableEq, Repr

/-- NewFilterChainBuilder. -/
def FilterChainBuilder.new : FilterChainBuilder := { filters := [] }

/-- Go fmt %.1f on a rational: sign, integer part, one decimal digit,
rounding the magnitude to the nearest tenth, computed on the numerator
and denominator (exact on all one-decimal inputs used in this
repository, where no rounding occurs). -/
def fmtF1 (q : ℚ) : String :=
  let a : Nat := (q.num * 10).natAbs
  let d : Nat := q.den
  let n : Nat := (2 * a + d) / (2 * d)
  (if q.num < 0 then "-" else "") ++ toString (n / 10) ++ "." ++ toString (n % 10)

/-- AddHighpass: appends highpass=f=FREQ. -/
def FilterChainBuilder.addHighpass (b : FilterChainBuilder) (freq : Int) : FilterChainBuilder :=
  { filters := b.filters ++ ["highpass=f=" ++ toString freq] }

/-- AddLowpass: appends lowpass=f=FREQ. -/
def FilterChainBuilder.addLowpass (b : FilterChainBuilder) (freq : Int) : FilterChainBuilder :=
  { filters := b.filters ++ ["lowpass=f=" ++ toString freq] }

/-- AddLoudnorm: appends loudnorm=I=%.1f:TP=%.1f:LRA=%.1f. -/
def FilterChainBuilder.addLoudnorm (b : FilterChainBuilder) (target truePeak lra : ℚ) : FilterChainBuilder :=
  { filters := b.filters ++
      ["loudnorm=I=" ++ fmtF1 target ++ ":TP=" ++ fmtF1 truePeak ++ ":LRA=" ++ fmtF1 lra] }

/-- Build: strings.Join(filters, ","). -/
def FilterChainBuilder.build (b : FilterChainBuilder) : String :=
  String.intercalate "," b.filters

/-- The audio filter chain constructed by Pipeline.runFFmpeg: highpass,
then lowpass, then loudnorm, each appended only when enabled. -/
def jobFilterChain (opts : ProcessingOptions) : String :=
  let fb := FilterChainBuilder.new
  let fb := if opts.highpassEnabled then fb.addHighpass opts.highpassFreq else fb
  let fb := if opts.lowpassEnabled then fb.addLowpass opts.lowpassFreq else fb
  let fb := if opts.normalizationEnabled then
      fb.addLoudnorm opts.loudnessTarget opts.truePeakLimit opts.loudnessRange
    else fb
  fb.build

/-- The bitrate token `fmt.Sprintf("%dk", opts.Bitrate/1000)` computed by
buildCodecArgs; Go integer division truncates toward zero. -/
def bitrateArg (b : Int) : String := toString (Int.tdiv b 1000) ++ "k"

/-- buildCodecArgs from application/pipeline: per-codec argument tokens,
switching on the codec string, with the VBR/CBR split per codec; an
unrecognized codec is a plain error. -/
def buildCodecArgs (opts : ProcessingOptions) : Except String (List String) :=
  let bitrate := bitrateArg opts.bitrate
  if opts.codec = "opus" then
    .ok (["-c:a", "libopus"] ++
      (if opts.bitrateMode = "vbr" then ["-vbr", "on", "-b:a", bitrate]
       else ["-vbr", "off", "-b:a", bitrate]))
  else if opts.codec = "aac" then
    .ok (["-c:a", "aac"] ++
      (if opts.bitrateMode = "vbr" then ["-q:a", "2"] else ["-b:a", bitrate]))
  else if opts.codec = "mp3" then
    .ok (["-c:a", "libmp3lame"] ++
      (if opts.bitrateMode = "vbr" then ["-q:a", "2"] else ["-b:a", bitrate]))
  else
    .error ("unsupported codec: " ++ opts.codec)

/-- The full ffmpeg argument list assembled by Pipeline.runFFmpeg for a
job whose codec arguments built successfully. -/
def ffmpegArgs (job : Job) (codecArgs : List String) : List String :=
  let base := ["-y", "-i", job.inputPath]
  let filterStr := jobFilterChain job.options
  let base := if filterStr = "" then base else base ++ ["-af", filterStr]
  base ++ ["-ar", toString job.options.sampleRate] ++ codecArgs ++ [job.outputPath]

/-- Pipeline.runFFmpeg: build the argument list, wrap a codec-args
failure as a ProcessingError with stage "encode", otherwise delegate to
the executor. Returns the error outcome paired with the executor calls
made. -/
def runFFmpeg (env : Env) (job : Job) : Option PErr × List ExecCall :=
  match buildCodecArgs job.options with
  | .error msg =>
      (some (.processing "encode" "failed to build codec args" (.plain msg)), [])
  | .ok codecArgs =>
      let args := ffmpegArgs job codecArgs
      (env.execute args, [.exec args])

/-- Pipeline.Run from application/pipeline: validate, probe input
(failure wrapped as ProcessingError with stage "probe"), run ffmpeg,
probe output (failure downgraded to a warning and replaced by the zero
metadata), and assemble the result. Returns the outcome paired with the
executor calls made. -/
def pipelineRun (env : Env) (job : Job) : Except PErr ProcessingResult × List ExecCall :=
  match validateInput env job with
  | some e => (.error e, [])
  | none =>
    match env.probe job.inputPath with
    | .error e =>
        (.error (.processing "probe" "failed to probe input file" e), [.probe job.inputPath])
    | .ok inputMeta =>
      match runFFmpeg env job with
      | (some e, calls) => (.error e, .probe job.inputPath :: calls)
      | (none, calls) =>
        let outputMeta :=
          match env.probe job.outputPath with
          | .error _ => AudioMetadata.zero
          | .ok m => m
        (.ok { inputPath := job.inputPath, outputPath := job.outputPath
               inputMeta := inputMeta, outputMeta := outputMeta },
         [ExecCall.probe job.inputPath] ++ calls ++ [ExecCall.probe job.outputPath])

/-- Retry configuration from pkg/retry: MaxAttempts (Go int), Delay and
MaxDelay in abstract integer duration units, and the float64 Multiplier
as a rational. -/
structure RetryConfig where
  maxAttempts : Int
  delay : Int
  multiplier : ℚ
  maxDelay : Int
deriving DecidableEq, Repr

/-- DefaultConfig from pkg/retry. -/
def defaultRetryConfig : RetryConfig :=
  { maxAttempts := 3, delay := goSecond, multiplier := 2, maxDelay := 30 * goSecond }

/-- Observable trace of one retry.Do call: the returned error (none is a
nil error), how many times fn was executed, and the backoff waits
actually slept, in order. -/
structure DoTrace where
  result : Option PErr
  executions : Nat
  waits : List Int
deriving DecidableEq, Repr

/-- Go computation time.Duration(float64(delay) * multiplier): the exact
rational product truncated toward zero, computed as t-division of
(multiplier numerator times delay) by the multiplier denominator, which
equals truncation of the exact product. -/
def goMulDuration (mult : ℚ) (delay : Int) : Int :=
  Int.tdiv (mult.num * delay) (mult.den : Int)

/-- The loop body of retry.Do. `remaining` counts loop iterations still
allowed (maxAttempts - attempt); `attempt` indexes fn invocations; `obs`
indexes observations of the ambient context, which the oracle `ctx`
answers (true = canceled). Each iteration observes the context once at
the top (ctx.Err) and, when it is about to back off, once more in the
select against the timer. -/
def retryGo (fn : Nat → Option PErr) (ctx : Nat → Bool) (mult : ℚ) (maxDelay : Int) :
    Nat → Nat → Nat → Int → Option PErr → DoTrace
  | 0, _, _, _, lastErr => { result := lastErr, executions := 0, waits := [] }
  | r + 1, attempt, obs, delay, _ =>
    if ctx obs then { result := some .ctxCanceled, executions := 0, waits := [] }
    else
      match fn attempt with
      | none => { result := none, executions := 1, waits := [] }
      | some e =>
        if r = 0 then { result := some e, executions := 1, waits := [] }
        else if ctx (obs + 1) then
          { result := some .ctxCanceled, executions := 1, waits := [] }
        else
          let next0 := goMulDuration mult delay
          let next := if maxDelay < next0 then maxDelay else next0
          let tr := retryGo fn ctx mult maxDelay r (attempt + 1) (obs + 2) next (some e)
          { result := tr.result, executions := tr.executions + 1, waits := delay :: tr.waits }

/-- retry.Do from pkg/retry: run fn up to MaxAttempts times (a
non-positive MaxAttempts runs the loop zero times and returns a nil
error), returning on the first success, on a context cancellation
observed before an attempt or during a backoff wait, or with the last
error after the final attempt; between attempts sleep the current delay,
then multiply it by Multiplier (computed in float64, truncated back to a
duration) and cap it at MaxDelay. -/
def retryDo (cfg : RetryConfig) (ctx : Nat → Bool) (fn : Nat → Option PErr) : DoTrace :=
  retryGo fn ctx cfg.multiplier cfg.maxDelay cfg.maxAttempts.toNat 0 0 cfg.delay none

/-- The closure AudioService.ProcessAudio passes to retry.Do, given the
(deterministic) outcome of the pipeline run it wraps: a validation error
anywhere in the unwrap chain is mapped to a nil error so that retrying
stops; any other error is returned to retry.Do. -/
def serviceFn (pOut : Except PErr ProcessingResult) : Option PErr :=
  match pOut with
  | .ok _ => none
  | .error e => if isValidationChain e then none else some e

/-- Outcome of a Go function returning (pointer, error): either a nil
pointer dereference panic, or a returned pair. -/
inductive GoOutcome (α : Type) where
  | panicNilDeref
  | ret (result : Option α) (err : Option PErr)
deriving DecidableEq, Repr

/-- AudioService.ProcessAudio from application/usecase: build the job,
run the pipeline under retry.Do with the validation-suppressing closure
(MaxAttempts and Delay from the options, Multiplier 2.0, MaxDelay 30s),
and on a nil error from retry.Do log completion by reading
result.Duration — a nil pointer dereference when no pipeline run
succeeded (the captured result pointer is still nil). The ambient
context, including the per-call timeout, is the oracle `ctx`. -/
def processAudio (env : Env) (ctx : Nat → Bool) (opts : ProcessingOptions)
    (inputPath outputPath jobID : String) : GoOutcome ProcessingResult :=
  let job : Job := { id := jobID, inputPath := inputPath, outputPath := outputPath, options := opts }
  let pOut := (pipelineRun env job).1
  let cfg : RetryConfig :=
    { maxAttempts := opts.maxRetries, delay := opts.retryDelay
      multiplier := 2, maxDelay := 30 * goSecond }
  let tr := retryDo cfg ctx (fun _ => serviceFn pOut)
  match tr.result with
  | some e => .ret none (some e)
  | none =>
    if tr.executions = 0 then .panicNilDeref
    else
      match pOut with
      | .ok r => .ret (some r) none
      | .error _ => .panicNilDeref

/-- Scheduler oracle for WorkerPool.Run, resolving its nondeterminism for
job index i: `ctxDone i` is whether the ambient context is observed
canceled when job i reaches the admission select; `pickDone i` is which
branch the Go select takes when both the ctx.Done receive and the
semaphore send are ready (Go chooses pseudo-randomly among ready cases;
when the semaphore is full only the Done branch is ready, which the
oracle represents with `pickDone i = true`). -/
structure PoolSched where
  ctxDone : Nat → Bool
  pickDone : Nat → Bool

/-- WorkerPool.processJob: fall back to default options when the BatchJob
carries none, run the pipeline, and wrap a failure as
`fmt.Errorf("job %s failed: %w", ...)`. -/
def processJobW (env : Env) (j : BatchJob) : Except PErr ProcessingResult × List ExecCall :=
  let opts := j.options.getD defaultProcessingOptions
  let pj : Job := { id := j.id, inputPath := j.inputPath, outputPath := j.outputPath, options := opts }
  match pipelineRun env pj with
  | (.ok r, calls) => (.ok r, calls)
  | (.error e, calls) => (.error (.wrapped ("job " ++ j.id ++ " failed") e), calls)

/-- The dispatch loop of WorkerPool.Run, sequentialized: job i emits a
cancellation BatchResult without running the pipeline exactly when the
context is observed canceled and the select resolves to the Done branch;
otherwise the job is admitted and runs processJob. Results are listed in
submission order (one representative of the nondeterministic completion
order); executor calls are accumulated. -/
def poolGo (env : Env) (sched : PoolSched) : Nat → List BatchJob → List BatchResult × List ExecCall
  | _, [] => ([], [])
  | i, j :: rest =>
    let tail := poolGo env sched (i + 1) rest
    if sched.ctxDone i && sched.pickDone i then
      ({ jobID := j.id, result := none, err := some .ctxCanceled } :: tail.1, tail.2)
    else
      match processJobW env j with
      | (.ok r, calls) =>
          ({ jobID := j.id, result := some r, err := none } :: tail.1, calls ++ tail.2)
      | (.error e, calls) =>
          ({ jobID := j.id, result := none, err := some e } :: tail.1, calls ++ tail.2)

/-- WorkerPool.Run: the complete, closed result stream (the buffered
result channel has capacity for every job, the waitgroup waits for all
workers, and the deferred close runs afterward), together with all
executor invocations made on behalf of the batch. -/
def workerPoolRunT (env : Env) (sched : PoolSched) (jobs : List BatchJob) :
    List BatchResult × List ExecCall :=
  poolGo env sched 0 jobs

/-- The result stream of WorkerPool.Run. -/
def workerPoolRun (env : Env) (sched : PoolSched) (jobs : List BatchJob) : List BatchResult :=
  (workerPoolRunT env sched jobs).1

/-- AudioService.ProcessBatch: an empty batch returns an immediately
closed channel; otherwise delegate to WorkerPool.Run. -/
def processBatch (env : Env) (sched : PoolSched) (jobs : List BatchJob) : List BatchResult :=
  if jobs.isEmpty then [] else workerPoolRun env sched jobs

/-! Concrete collaborator environments, schedules and inputs used by the
claim theorems and their witnesses. -/

/-- A context oracle that never observes cancellation. -/
def ctxNever : Nat → Bool := fun _ => false

/-- Probe metadata shaped like the mock executor's default probe
response. -/
def sampleMeta : AudioMetadata :=
  { duration := 120, sampleRate := 44100, channels := 2, bitrate := 1411200
    codec := "pcm_s16le", format := "wav", size := 2880000 }

/-- Environment in which storage reports every path present and both
executor operations succeed. -/
def envAllOk : Env :=
  { storageExists := fun _ => .ok true
    probe := fun _ => .ok sampleMeta
    execute := fun _ => none }

/-- Environment in which every probe fails the way a canceled or broken
ffprobe run does, while storage and Execute succeed. -/
def envProbeFails : Env :=
  { storageExists := fun _ => .ok true
    probe := fun _ => .error (.ffmpeg "ffprobe execution failed" [] (-1) "")
    execute := fun _ => none }

/-- Environment in which probing the output path fails while everything
else succeeds. -/
def envOutProbeFails : Env :=
  { storageExists := fun _ => .ok true
    probe := fun p => if p = "out.opus" then .error (.plain "failed to parse ffprobe output") else .ok sampleMeta
    execute := fun _ => none }

/-- Environment whose storage existence check itself fails. -/
def envStorageErr : Env :=
  { storageExists := fun _ => .error "disk offline"
    probe := fun _ => .ok sampleMeta
    execute := fun _ => none }

/-- Schedule in which the ambient context is observed canceled at every
admission, but the Go select resolves to the (also ready) semaphore
branch, admitting the job anyway. -/
def schedAdmitWhileCanceled : PoolSched :=
  { ctxDone := fun _ => true, pickDone := fun _ => false }

/-- A single batch job with no per-job options. -/
def batchJobC3 : BatchJob :=
  { id := "j1", inputPath := "in.wav", outputPath := "out.opus", options := none }

/-- A valid single job with default options. -/
def jobC5 : Job :=
  { id := "j5", inputPath := "in.wav", outputPath := "out.opus"
    options := defaultProcessingOptions }

/-- Job with an empty input path and otherwise default options. -/
def jobEmptyInput : Job :=
  { id := "j8", inputPath := "", outputPath := "out.opus"
    options := defaultProcessingOptions }

/-- A valid job against which a storage error is observed. -/
def jobC8 : Job :=
  { id := "j8b", inputPath := "in.wav", outputPath := "out.opus"
    options := defaultProcessingOptions }

/-- Options for the C9 scenario: highpass at 80 Hz and normalization to
-16 LUFS enabled, lowpass disabled. -/
def optsC9 : ProcessingOptions :=
  { defaultProcessingOptions with
    highpassEnabled := true, highpassFreq := 80
    normalizationEnabled := true, loudnessTarget := -16
    truePeakLimit := -1, loudnessRange := 7
    lowpassEnabled := false }

/-- Default options with a sub-1000 bitrate. -/
def optsLowBitrate : ProcessingOptions :=
  { defaultProcessingOptions with bitrate := 500 }

/-! Claim theorems. -/

/-- Claim C1, counter-evidence for the code bug: for a single-job
ProcessAudio call whose pipeline run fails with a validation error (the
empty input path), the retry closure maps the validation error to a nil
error to stop retrying, retry.Do therefore returns a nil error, and
ProcessAudio — far from returning the original validation error — reaches
its completion log and dereferences the still-nil result pointer. The
caller never sees the validation error. -/
theorem c1_validation_error_lost_processAudio_panics :
    (pipelineRun envAllOk jobEmptyInput).1 =
      .error (.validation "inputPath" "" "input path must not be empty") ∧
    processAudio envAllOk ctxNever defaultProcessingOptions "" "out.opus" "j8" =
      .panicNilDeref := by
  constructor
  · decide
  · decide

/-- One BatchResult per submitted job, labelled with that job's ID, for
every admission index of the worker pool dispatch loop. -/
theorem poolGo_map_jobID (env : Env) (sched : PoolSched) :
    ∀ (i : Nat) (jobs : List BatchJob),
      ((poolGo env sched i jobs).1).map BatchResult.jobID = jobs.map BatchJob.id := by
  intro i jobs
  induction jobs generalizing i with
  | nil => rfl
  | cons j rest ih =>
    simp only [poolGo]
    by_cases h : sched.ctxDone i && sched.pickDone i
    · simp [h, ih]
    · rcases hp : processJobW env j with ⟨res, calls⟩
      rcases res with e | r
      · simp [h, hp, ih]
      · simp [h, hp, ih]

/-- Claim C2: a batch of N submitted jobs yields a result stream with
exactly N BatchResult entries, exactly one per submitted job ID (the
stream is the complete closed channel contents), and the empty batch
yields an already-closed empty stream. -/
theorem c2_batch_exactly_one_result_per_job (env : Env) (sched : PoolSched)
    (jobs : List BatchJob) :
    (workerPoolRun env sched jobs).length = jobs.length ∧
    (workerPoolRun env sched jobs).map BatchResult.jobID = jobs.map BatchJob.id ∧
    processBatch env sched [] = [] := by
  have h : (workerPoolRun env sched jobs).map BatchResult.jobID = jobs.map BatchJob.id :=
    poolGo_map_jobID env sched 0 jobs
  refine ⟨?_, h, rfl⟩
  have hlen := congrArg List.length h
  simpa using hlen

/-- Claim C3, counter-evidence for the code bug: with the ambient context
canceled before any admission, the Go select in WorkerPool.Run chooses
pseudo-randomly between the ready ctx.Done receive and the ready
semaphore send; under a schedule resolving it to the semaphore branch,
the single job is admitted, the Pipeline runs, the transformation
executor is invoked (here: one Probe call), and the job's BatchResult
carries a wrapped probe failure instead of the cancellation error. -/
theorem c3_canceled_before_admission_can_still_invoke_executor :
    (workerPoolRunT envProbeFails schedAdmitWhileCanceled [batchJobC3]).2 =
      [ExecCall.probe "in.wav"] ∧
    (workerPoolRunT envProbeFails schedAdmitWhileCanceled [batchJobC3]).2.length ≠ 0 ∧
    (workerPoolRunT envProbeFails schedAdmitWhileCanceled [batchJobC3]).1 =
      [{ jobID := "j1", result := none
         err := some (.wrapped "job j1 failed"
           (.processing "probe" "failed to probe input file"
             (.ffmpeg "ffprobe execution failed" [] (-1) ""))) }] := by
  refine ⟨by decide, by decide, by decide⟩

/-- Claim C4: whenever the configured attempt budget is at least one, the
ambient context is live, and the wrapped pipeline run fails with a
validation-kind error, the unit of work under ProcessAudio's retry
closure executes exactly once, with no backoff wait. -/
theorem c4_validation_failure_runs_exactly_once (cfg : RetryConfig) (ctx : Nat → Bool)
    (e : PErr) (hmax : 1 ≤ cfg.maxAttempts) (hctx : ctx 0 = false)
    (hval : isValidationChain e = true) :
    retryDo cfg ctx (fun _ => serviceFn (.error e)) =
      { result := none, executions := 1, waits := [] } := by
  obtain ⟨r, hr⟩ : ∃ r, cfg.maxAttempts.toNat = r + 1 :=
    ⟨cfg.maxAttempts.toNat - 1, by omega⟩
  simp [retryDo, hr, retryGo, hctx, serviceFn, hval]

/-- Claim C4 witness: budget five, a concrete validation error, exactly
one execution and no waits. -/
theorem c4_witness :
    1 ≤ (5 : Int) ∧
    retryDo { maxAttempts := 5, delay := 1, multiplier := 2, maxDelay := 30 } ctxNever
        (fun _ => serviceFn (.error (.validation "bitrate" "0" "bitrate must be positive"))) =
      { result := none, executions := 1, waits := [] } :=
  ⟨by decide,
   c4_validation_failure_runs_exactly_once
     { maxAttempts := 5, delay := 1, multiplier := 2, maxDelay := 30 } ctxNever
     (.validation "bitrate" "0" "bitrate must be positive") (by decide) rfl (by decide)⟩

/-- Claim C5: when validation passes, the input probe succeeds and the
transformation succeeds, but probing the output file fails, Pipeline.Run
still returns a successful ProcessingResult whose output metadata is the
zero-value AudioMetadata, and no error is propagated. -/
theorem c5_output_probe_failure_downgraded (env : Env) (job : Job)
    (im : AudioMetadata) (e : PErr)
    (hv : validateInput env job = none)
    (hpi : env.probe job.inputPath = .ok im)
    (hx : (runFFmpeg env job).1 = none)
    (hpo : env.probe job.outputPath = .error e) :
    (pipelineRun env job).1 =
      .ok { inputPath := job.inputPath, outputPath := job.outputPath
            inputMeta := im, outputMeta := AudioMetadata.zero } := by
  rcases hrf : runFFmpeg env job with ⟨o, calls⟩
  rw [hrf] at hx
  simp only at hx
  subst hx
  simp [pipelineRun, hv, hpi, hrf, hpo]

/-- Claim C5 witness: a concrete run in which only the output probe
fails; the result is successful with zero-value output metadata. -/
theorem c5_witness :
    (pipelineRun envOutProbeFails jobC5).1 =
      .ok { inputPath := "in.wav", outputPath := "out.opus"
            inputMeta := sampleMeta, outputMeta := AudioMetadata.zero } :=
  c5_output_probe_failure_downgraded envOutProbeFails jobC5 sampleMeta
    (.plain "failed to parse ffprobe output") (by decide) (by decide) (by decide) (by decide)

/-- Claim C6: with max attempts 3, base delay 1 time-unit, multiplier 2.0
and any cap of at least 2 units, a unit of work failing on attempts 1
and 2 and succeeding on attempt 3 under a live context makes retry.Do
sleep exactly twice, 1 then 2 time-units, execute the work three times,
and return success. -/
theorem c6_backoff_waits_one_then_two (md : Int) (ctx : Nat → Bool)
    (fn : Nat → Option PErr) (e1 e2 : PErr)
    (hmd : 2 ≤ md) (hctx : ∀ n, ctx n = false)
    (h0 : fn 0 = some e1) (h1 : fn 1 = some e2) (h2 : fn 2 = none) :
    retryDo { maxAttempts := 3, delay := 1, multiplier := 2, maxDelay := md } ctx fn =
      { result := none, executions := 3, waits := [1, 2] } := by
  have hlt : ¬ (md < 2) := by omega
  simp [retryDo, retryGo, hctx, h0, h1, h2, goMulDuration, hlt]

/-- Claim C6 witness: the standard cap of 30 units and a concrete
transient failure on the first two attempts. -/
theorem c6_witness :
    2 ≤ (30 : Int) ∧
    retryDo { maxAttempts := 3, delay := 1, multiplier := 2, maxDelay := 30 } ctxNever
        (fun n => if n ≤ 1 then some (.ffmpeg "ffmpeg execution failed" [] 1 "transient") else none) =
      { result := none, executions := 3, waits := [1, 2] } :=
  ⟨by decide,
   c6_backoff_waits_one_then_two 30 ctxNever
     (fun n => if n ≤ 1 then some (.ffmpeg "ffmpeg execution failed" [] 1 "transient") else none)
     (.ffmpeg "ffmpeg execution failed" [] 1 "transient")
     (.ffmpeg "ffmpeg execution failed" [] 1 "transient")
     (by decide) (fun _ => rfl) (by decide) (by decide) (by decide)⟩

/-- Claim C7: a configured attempt budget of zero (or any non-positive
value) or one performs no retry under a live context: the work runs at
most once, no backoff wait happens, and the caller observes the single
attempt's outcome — or, when the budget admits no attempt at all, the
loop's nil error. -/
theorem c7_budget_at_most_one_never_retries (cfg : RetryConfig) (ctx : Nat → Bool)
    (fn : Nat → Option PErr) (hmax : cfg.maxAttempts ≤ 1) (hctx : ctx 0 = false) :
    retryDo cfg ctx fn =
      if cfg.maxAttempts ≤ 0 then { result := none, executions := 0, waits := [] }
      else { result := fn 0, executions := 1, waits := [] } := by
  by_cases h : cfg.maxAttempts ≤ 0
  · have h0 : cfg.maxAttempts.toNat = 0 := by omega
    simp [retryDo, h0, retryGo, h]
  · have h1 : cfg.maxAttempts.toNat = 0 + 1 := by omega
    rw [retryDo, h1]
    rcases hf : fn 0 with _ | e <;> simp [retryGo, hctx, h, hf]

/-- Claim C7 witness: budget one with a failing unit of work — one
execution, no waits, the failure returned. -/
theorem c7_witness :
    retryDo { maxAttempts := 1, delay := 1, multiplier := 2, maxDelay := 30 } ctxNever
        (fun _ => some (.plain "boom")) =
      { result := some (.plain "boom"), executions := 1, waits := [] } := by
  have h := c7_budget_at_most_one_never_retries
    { maxAttempts := 1, delay := 1, multiplier := 2, maxDelay := 30 } ctxNever
    (fun _ => some (.plain "boom")) (by decide) rfl
  simpa using h

/-- Characterization of when validateInput yields a validation-kind
error: exactly on an empty input path, an empty output path, or — when
the storage existence check answers — a missing input file, a
non-positive bitrate, or a non-positive sample rate. -/
theorem validateInput_validation_iff (env : Env) (job : Job) :
    (∃ e, validateInput env job = some e ∧ isValidationErr e = true) ↔
      (job.inputPath = "" ∨ job.outputPath = "" ∨
        ∃ b, env.storageExists job.inputPath = Except.ok b ∧
          (b = false ∨ job.options.bitrate ≤ 0 ∨ job.options.sampleRate ≤ 0)) := by
  unfold validateInput
  by_cases h1 : job.inputPath = ""
  · simp [h1, isValidationErr]
  by_cases h2 : job.outputPath = ""
  · simp [h1, h2, isValidationErr]
  rcases hs : env.storageExists job.inputPath with msg | b
  · simp [h1, h2, hs, isValidationErr]
  rcases b
  · simp [h1, h2, hs, isValidationErr]
  by_cases h3 : job.options.bitrate ≤ 0
  · simp [h1, h2, hs, h3, isValidationErr]
  by_cases h4 : job.options.sampleRate ≤ 0
  · simp [h1, h2, hs, h3, h4, isValidationErr]
  · simp [h1, h2, hs, h3, h4, isValidationErr]

/-- A failing storage existence check makes validateInput return a
processing-failure error wrapping the storage error. -/
theorem validateInput_storage_error (env : Env) (job : Job) (msg : String)
    (h1 : job.inputPath ≠ "") (h2 : job.outputPath ≠ "")
    (hs : env.storageExists job.inputPath = .error msg) :
    validateInput env job =
      some (.processing "validate" "failed to check input file" (.plain msg)) := by
  simp [validateInput, h1, h2, hs]

/-- Claim C8: validateInput returns a validation-kind error exactly when
the input path is empty, the output path is empty, or the storage check
answers and reports a missing input file or the options carry a
non-positive bitrate or sample rate; and when the storage existence
check itself errors (on nonempty paths, where it is reached), the result
is a processing-failure-kind error wrapping the storage error, not a
validation error. -/
theorem c8_validate_classification (env : Env) (job : Job) :
    ((∃ e, validateInput env job = some e ∧ isValidationErr e = true) ↔
      (job.inputPath = "" ∨ job.outputPath = "" ∨
        ∃ b, env.storageExists job.inputPath = Except.ok b ∧
          (b = false ∨ job.options.bitrate ≤ 0 ∨ job.options.sampleRate ≤ 0))) ∧
    (∀ msg, job.inputPath ≠ "" → job.outputPath ≠ "" →
      env.storageExists job.inputPath = .error msg →
      validateInput env job =
        some (.processing "validate" "failed to check input file" (.plain msg)) ∧
      isValidationErr (.processing "validate" "failed to check input file" (.plain msg)) = false ∧
      isProcessingErr (.processing "validate" "failed to check input file" (.plain msg)) = true) :=
  ⟨validateInput_validation_iff env job,
   fun msg h1 h2 hs => ⟨validateInput_storage_error env job msg h1 h2 hs, rfl, rfl⟩⟩

/-- Claim C8 witness: a storage error on a well-formed job yields the
processing-failure wrap, and an empty input path yields a
validation-kind error. -/
theorem c8_witness :
    validateInput envStorageErr jobC8 =
      some (.processing "validate" "failed to check input file" (.plain "disk offline")) ∧
    (∃ e, validateInput envAllOk jobEmptyInput = some e ∧ isValidationErr e = true) :=
  ⟨((c8_validate_classification envStorageErr jobC8).2 "disk offline"
      (by decide) (by decide) rfl).1,
   (c8_validate_classification envAllOk jobEmptyInput).1.mpr (Or.inl rfl)⟩

/-- Claim C9: for highpass enabled at 80 Hz, loudness normalization
enabled at -16.0 LUFS with true-peak -1.0 and loudness range 7.0, and
lowpass disabled, the constructed filter chain is exactly the claimed
string; and in general the enabled filters are joined with commas in
the fixed order highpass, lowpass, loudness-normalization, each omitted
when disabled. -/
theorem c9_filter_chain_exact_and_ordered :
    jobFilterChain optsC9 = "highpass=f=80,loudnorm=I=-16.0:TP=-1.0:LRA=7.0" ∧
    ∀ opts : ProcessingOptions,
      jobFilterChain opts = String.intercalate ","
        ((if opts.highpassEnabled then ["highpass=f=" ++ toString opts.highpassFreq] else []) ++
         (if opts.lowpassEnabled then ["lowpass=f=" ++ toString opts.lowpassFreq] else []) ++
         (if opts.normalizationEnabled then
            ["loudnorm=I=" ++ fmtF1 opts.loudnessTarget ++ ":TP=" ++ fmtF1 opts.truePeakLimit ++
             ":LRA=" ++ fmtF1 opts.loudnessRange]
          else [])) := by
  refine ⟨by decide, ?_⟩
  intro opts
  unfold jobFilterChain FilterChainBuilder.new FilterChainBuilder.build
  by_cases h1 : opts.highpassEnabled <;> by_cases h2 : opts.lowpassEnabled <;>
    by_cases h3 : opts.normalizationEnabled <;>
    simp [h1, h2, h3, FilterChainBuilder.addHighpass, FilterChainBuilder.addLowpass,
      FilterChainBuilder.addLoudnorm]

/-- Claim C10: for a positive bitrate, the bitrate token computed by
buildCodecArgs is the truncated quotient bitrate/1000 followed by "k";
that token is what each recognized codec's constant-bitrate argument
list (and opus in both modes) carries; a positive bitrate passes the
validation bitrate check (and, with the other validation inputs
satisfied, validateInput accepts the job); and every bitrate from 1 to
999 nevertheless yields the token "0k". -/
theorem c10_bitrate_token_truncated_quotient (b : Int) (opts : ProcessingOptions)
    (hb : 0 < b) (hbr : opts.bitrate = b) :
    (bitrateArg b = toString (Int.tdiv b 1000) ++ "k") ∧
    (opts.codec = "opus" →
      buildCodecArgs opts = .ok (["-c:a", "libopus"] ++
        (if opts.bitrateMode = "vbr" then ["-vbr", "on", "-b:a", bitrateArg b]
         else ["-vbr", "off", "-b:a", bitrateArg b]))) ∧
    (opts.codec = "aac" → ¬ opts.bitrateMode = "vbr" →
      buildCodecArgs opts = .ok ["-c:a", "aac", "-b:a", bitrateArg b]) ∧
    (opts.codec = "mp3" → ¬ opts.bitrateMode = "vbr" →
      buildCodecArgs opts = .ok ["-c:a", "libmp3lame", "-b:a", bitrateArg b]) ∧
    (¬ opts.bitrate ≤ 0) ∧
    (∀ (env : Env) (job : Job), job.options = opts →
      job.inputPath ≠ "" → job.outputPath ≠ "" →
      env.storageExists job.inputPath = .ok true →
      0 < opts.sampleRate →
      validateInput env job = none) ∧
    (b ≤ 999 → bitrateArg b = "0k") := by
  refine ⟨rfl, ?_, ?_, ?_, by omega, ?_, ?_⟩
  · intro hc
    simp [buildCodecArgs, hc, hbr]
  · intro hc hm
    simp [buildCodecArgs, hc, hm, hbr]
  · intro hc hm
    simp [buildCodecArgs, hc, hm, hbr]
  · intro env job hjo h1 h2 hs hsr
    have hbpos : ¬ job.options.bitrate ≤ 0 := by rw [hjo, hbr]; omega
    have hspos : ¬ job.options.sampleRate ≤ 0 := by rw [hjo]; omega
    simp [validateInput, h1, h2, hs, hbpos, hspos]
  · intro hle
    have ht : Int.tdiv b 1000 = 0 := by
      obtain ⟨n, rfl⟩ : ∃ n : Nat, b = (n : Int) := ⟨b.toNat, by omega⟩
      have hn : n < 1000 := by omega
      have hq : Int.tdiv (n : Int) 1000 = ((n / 1000 : Nat) : Int) := rfl
      rw [hq, Nat.div_eq_of_lt hn]
      rfl
    rw [bitrateArg, ht]
    decide

/-- Claim C10 witness: bitrate 500 passes validation, reaches the opus
constant-bitrate argument list, and is rendered as the token 0k. -/
theorem c10_witness :
    buildCodecArgs optsLowBitrate =
      .ok ["-c:a", "libopus", "-vbr", "off", "-b:a", "0k"] ∧
    validateInput envAllOk { id := "jw", inputPath := "in.wav", outputPath := "out.opus"
                             options := optsLowBitrate } = none ∧
    bitrateArg 500 = "0k" := by
  have h := c10_bitrate_token_truncated_quotient 500 optsLowBitrate (by decide) rfl
  have hz : bitrateArg 500 = "0k" := h.2.2.2.2.2.2 (by decide)
  have hop := h.2.1 rfl
  refine ⟨?_, ?_, hz⟩
  · rw [hop, hz]
    decide
  · exact h.2.2.2.2.2.1 envAllOk
      { id := "jw", inputPath := "in.wav", outputPath := "out.opus", options := optsLowBitrate }
      rfl (by decide) (by decide) rfl (by decide)

end AudioLab
